import Mathlib

/- Shallow embedding of runefall (src/main.rs), a terminal rune-rain
   animation engine.  Modelling conventions, used consistently below:
   machine integers are Nat/Int with an explicit mod 2 ^ 64 where the
   source uses wrapping u64 arithmetic; Rust's saturating u16
   subtraction is Nat subtraction; f32 values are modelled as exact
   rationals (every f32 computation the claims touch is exact, and the
   float-literal constants are taken at their decimal values); the
   uniform random source is an infinite stream of naturals where each
   draw consumes one element and a bounded draw is reduced into range
   with mod, so any in-range outcome is realisable by some stream and
   properties quantify over all streams. -/

namespace Runefall

/-- The uniform random source: an infinite stream of naturals. -/
abbrev Rng : Type := Nat → Nat

/-- Advance the stream past one consumed element. -/
def Rng.bump (r : Rng) : Rng := fun n => r (n + 1)

/-- Model of `rng.gen_range(lo..hi)` (half-open); the source only calls
it with a nonempty range. -/
def genRange (r : Rng) (lo hi : Nat) : Nat × Rng :=
  (lo + r 0 % (hi - lo), r.bump)

/-- Model of `rng.gen_range(lo..=hi)` (inclusive upper end). -/
def genRangeIncl (r : Rng) (lo hi : Nat) : Nat × Rng :=
  genRange r lo (hi + 1)

/-- Model of `rng.gen::<u8>()`. -/
def genByte (r : Rng) : Nat × Rng := (r 0 % 256, r.bump)

/-- Model of `rng.gen_ratio(1, d)`: a draw that is true one time in d. -/
def genOneIn (r : Rng) (d : Nat) : Bool × Rng := (r 0 % d == 0, r.bump)

/-- The runic character sets (src/main.rs lines 14-36). -/
def ELDER_FUTHARK : List Char :=
  ['ᚠ', 'ᚢ', 'ᚦ', 'ᚨ', 'ᚱ', 'ᚲ', 'ᚷ', 'ᚹ', 'ᚺ', 'ᚾ', 'ᛁ', 'ᛃ', 'ᛇ', 'ᛈ', 'ᛉ', 'ᛊ', 'ᛋ', 'ᛏ', 'ᛒ',
   'ᛖ', 'ᛗ', 'ᛚ', 'ᛜ', 'ᛝ', 'ᛞ', 'ᛟ']

def YOUNGER_FUTHARK : List Char :=
  ['ᚠ', 'ᚢ', 'ᚦ', 'ᚬ', 'ᚱ', 'ᚴ', 'ᚼ', 'ᚾ', 'ᛁ', 'ᛅ', 'ᛋ', 'ᛏ', 'ᛒ', 'ᛘ', 'ᛚ', 'ᛦ']

def ANGLO_SAXON : List Char :=
  ['ᚠ', 'ᚢ', 'ᚦ', 'ᚩ', 'ᚱ', 'ᚳ', 'ᚷ', 'ᚹ', 'ᚻ', 'ᚾ', 'ᛁ', 'ᛄ', 'ᛇ', 'ᛈ', 'ᛉ', 'ᛋ', 'ᛏ', 'ᛒ', 'ᛖ',
   'ᛗ', 'ᛚ', 'ᛝ', 'ᛟ', 'ᛡ', 'ᛣ', 'ᛥ']

def OGHAM : List Char :=
  ['ᚁ', 'ᚂ', 'ᚃ', 'ᚄ', 'ᚅ', 'ᚆ', 'ᚇ', 'ᚈ', 'ᚉ', 'ᚊ', 'ᚋ', 'ᚌ', 'ᚍ', 'ᚎ', 'ᚏ', 'ᚐ', 'ᚑ', 'ᚒ', 'ᚓ',
   'ᚔ', 'ᚕ', 'ᚖ', 'ᚗ', 'ᚘ', 'ᚙ', 'ᚚ']

def MYSTIC : List Char :=
  ['☽', '☾', '✧', '✦', '◈', '◇', '⁂', '⊕', '⊗', '⊛', '⌘', '⍟', '♅', '♆', '♇', '⚝', '✡', '⬡', '⬢',
   '⏣', '⏥', '◉', '◎', '⦿']

inductive RuneSet where
  | All
  | Elder
  | Younger
  | Anglo
  | Ogham
  | Mystic
deriving DecidableEq

/-- Model of `random_rune`: for `All`, first a uniform pick among the five
named sets, then a uniform pick of a glyph inside the chosen set. -/
def random_rune (rng : Rng) (set : RuneSet) : Char × Rng :=
  let chosen : List Char × Rng :=
    match set with
    | .All =>
      let allSets : List (List Char) :=
        [ELDER_FUTHARK, YOUNGER_FUTHARK, ANGLO_SAXON, OGHAM, MYSTIC]
      let g := genRange rng 0 allSets.length
      (allSets.getD g.1 [], g.2)
    | .Elder => (ELDER_FUTHARK, rng)
    | .Younger => (YOUNGER_FUTHARK, rng)
    | .Anglo => (ANGLO_SAXON, rng)
    | .Ogham => (OGHAM, rng)
    | .Mystic => (MYSTIC, rng)
  let g2 := genRange chosen.2 0 chosen.1.length
  (chosen.1.getD g2.1 'ᚠ', g2.2)

inductive Direction where
  | Down
  | Up
  | Left
  | Right
deriving DecidableEq

/-- Lane-axis bound: the number of lanes for the given grid (columns for
vertical scroll, rows for horizontal scroll). -/
def Direction.max_lanes (d : Direction) (cols rows : Nat) : Nat :=
  match d with
  | .Down | .Up => cols
  | .Left | .Right => rows

/-- Travel-axis bound (rows for vertical scroll, columns for horizontal). -/
def Direction.max_pos (d : Direction) (cols rows : Nat) : Nat :=
  match d with
  | .Down | .Up => rows
  | .Left | .Right => cols

/-- Model of `Direction::to_screen`: abstract (lane, travel position) to a
screen coordinate, none when the travel coordinate is off-grid.  The
reverse directions use Rust's saturating u16 subtraction, which is Nat
subtraction. -/
def Direction.to_screen (d : Direction) (lane : Nat) (pos : Int) (cols rows : Nat) :
    Option (Nat × Nat) :=
  match d with
  | .Down => if 0 ≤ pos ∧ pos < (rows : Int) then some (lane, pos.toNat) else none
  | .Up => if 0 ≤ pos ∧ pos < (rows : Int) then some (lane, rows - 1 - pos.toNat) else none
  | .Right => if 0 ≤ pos ∧ pos < (cols : Int) then some (pos.toNat, lane) else none
  | .Left => if 0 ≤ pos ∧ pos < (cols : Int) then some (cols - 1 - pos.toNat, lane) else none

/-- Truncation toward zero, as Rust float-to-int casts and `%` use. -/
def ratTrunc (q : ℚ) : Int := if q < 0 then ⌈q⌉ else ⌊q⌋

/-- Model of Rust's `%` on floats: remainder with the dividend's sign. -/
def rustRem (a b : ℚ) : ℚ := a - b * (ratTrunc (a / b) : ℚ)

/-- Model of `as u8` from f32: saturating truncation into [0, 255]. -/
def toU8 (q : ℚ) : Nat := if q < 0 then 0 else min 255 (Int.toNat ⌊q⌋)

/-- Model of `as u32` from f32: saturating truncation into [0, 2^32). -/
def u32sat (q : ℚ) : Nat := if q < 0 then 0 else min (2 ^ 32 - 1) (Int.toNat ⌊q⌋)

/-- Model of `as u64` on an i32: sign extension, i.e. reduction mod 2^64. -/
def u64ofI32 (c : Int) : Nat := (c % (2 ^ 64 : Int)).toNat

/-- The hue-segment dispatch of `hsl_to_rgb` (the `match hp as u32`). -/
def hueSegment (seg : Nat) (c x : ℚ) : ℚ × ℚ × ℚ :=
  match seg with
  | 0 => (c, x, 0)
  | 1 => (x, c, 0)
  | 2 => (0, c, x)
  | 3 => (0, x, c)
  | 4 => (x, 0, c)
  | _ => (c, 0, x)

/-- Model of `hsl_to_rgb` (standard chroma/hue-segment algorithm). -/
def hsl_to_rgb (h s l : ℚ) : Nat × Nat × Nat :=
  let c := (1 - |2 * l - 1|) * s
  let hp := h / 60
  let x := c * (1 - |rustRem hp 2 - 1|)
  let rgb1 := hueSegment (u32sat hp) c x
  let m := l - c / 2
  (toU8 ((rgb1.1 + m) * 255), toU8 ((rgb1.2.1 + m) * 255), toU8 ((rgb1.2.2 + m) * 255))

inductive Palette where
  | Arcane
  | Emerald
  | Frost
  | Ember
  | Rainbow
  | BlinkingRainbow
deriving DecidableEq

/-- The palette names `Palette::from_str` recognizes (lowercased). -/
def recognizedPalettes : List String :=
  ["emerald", "green", "frost", "blue", "cyan", "ember", "red", "fire",
   "rainbow", "multi", "blinking", "blink", "cmatrix"]

/-- Model of `Palette::from_str`: anything unrecognized is Arcane. -/
def Palette.from_str (s : String) : Palette :=
  let t := s.toLower
  if t = "emerald" ∨ t = "green" then .Emerald
  else if t = "frost" ∨ t = "blue" ∨ t = "cyan" then .Frost
  else if t = "ember" ∨ t = "red" ∨ t = "fire" then .Ember
  else if t = "rainbow" ∨ t = "multi" then .Rainbow
  else if t = "blinking" ∨ t = "blink" ∨ t = "cmatrix" then .BlinkingRainbow
  else .Arcane

/-- Model of `Palette::color`: trail-cell color from clamped intensity,
column seed, global tick and travel coordinate. -/
def Palette.color (p : Palette) (intensity : ℚ) (column_seed global_tick : Nat)
    (coordinate : Int) : Nat × Nat × Nat :=
  let i := min (max intensity 0) 1
  match p with
  | .Arcane =>
      (toU8 (180 * i + 40 * (1 - i)), toU8 (60 * i + 10 * (1 - i)),
       toU8 (255 * i + 80 * (1 - i)))
  | .Emerald =>
      (toU8 (50 * i), toU8 (255 * i + 30 * (1 - i)), toU8 (80 * i + 10 * (1 - i)))
  | .Frost =>
      (toU8 (100 * i), toU8 (200 * i + 40 * (1 - i)), toU8 (255 * i + 60 * (1 - i)))
  | .Ember =>
      (toU8 (255 * i + 60 * (1 - i)), toU8 (120 * i * i), toU8 (30 * i))
  | .Rainbow =>
      let hue := rustRem ((column_seed : ℚ) / 255 * 360 + i * 60) 360
      hsl_to_rgb hue (9 / 10) (1 / 4 + 9 / 20 * i)
  | .BlinkingRainbow =>
      let pseudo :=
        ((global_tick + u64ofI32 coordinate) % 2 ^ 64 + column_seed) % 2 ^ 64
          * 1103515245 % 2 ^ 64
      hsl_to_rgb ((pseudo % 360 : Nat) : ℚ) 1 (2 / 5 + 3 / 10 * i)

structure Stream where
  lane : Nat
  pos : Int
  speed : Nat
  tick_counter : Nat
  trail_len : Nat
  color_seed : Nat
  active : Bool
  chars : List Char

/-- The glyph-filling loop shared by `Stream::new` and `Stream::reset`. -/
def pickRunes : Nat → Rng → RuneSet → List Char × Rng
  | 0, rng, _ => ([], rng)
  | n + 1, rng, rs =>
    let c := random_rune rng rs
    let rest := pickRunes n c.2 rs
    (c.1 :: rest.1, rest.2)

/-- Model of `Stream::new`.  Draw order follows the source: trail length,
speed, glyphs, then the head offset and the color seed (evaluated in the
struct literal). -/
def Stream.new (lane maxPos : Nat) (rng : Rng) (rs : RuneSet) : Stream × Rng :=
  let t := genRangeIncl rng 4 (max (maxPos - 2) 6)
  let sp := genRangeIncl t.2 1 4
  let ch := pickRunes t.1 sp.2 rs
  let off := genRange ch.2 0 (max maxPos 1)
  let sd := genByte off.2
  ({ lane := lane, pos := -(off.1 : Int), speed := sp.1, tick_counter := 0,
     trail_len := t.1, color_seed := sd.1, active := true, chars := ch.1 }, sd.2)

/-- Model of `Stream::reset`.  The resulting state does not depend on the
old stream; draw order follows the source: head offset, speed, trail
length, color seed, glyphs. -/
def Stream.reset (_s : Stream) (lane maxPos : Nat) (rng : Rng) (rs : RuneSet) :
    Stream × Rng :=
  let off := genRange rng 0 (max maxPos 1)
  let sp := genRangeIncl off.2 1 4
  let t := genRangeIncl sp.2 4 (max (maxPos - 2) 6)
  let sd := genByte t.2
  let ch := pickRunes t.1 sd.2 rs
  ({ lane := lane, pos := -(off.1 : Int), speed := sp.1, tick_counter := 0,
     trail_len := t.1, color_seed := sd.1, active := true, chars := ch.1 }, ch.2)

/-- Model of `Stream::tick`: bump the counter; when it reaches the speed,
reset it, advance the head, occasionally shimmer one glyph (one-in-five,
only when the trail is nonempty, matching the source's short-circuit),
and deactivate once the tail has scrolled past the travel bound. -/
def Stream.tick (s : Stream) (maxPos : Nat) (rng : Rng) (rs : RuneSet) : Stream × Rng :=
  let tc := s.tick_counter + 1
  if s.speed ≤ tc then
    let newPos := s.pos + 1
    let cr : List Char × Rng :=
      if s.chars.isEmpty then (s.chars, rng)
      else
        let gb := genOneIn rng 5
        if gb.1 then
          let gi := genRange gb.2 0 s.chars.length
          let gc := random_rune gi.2 rs
          (s.chars.set gi.1 gc.1, gc.2)
        else (s.chars, gb.2)
    let act := if (maxPos : Int) < newPos - (s.trail_len : Int) then false else s.active
    ({ s with pos := newPos, tick_counter := 0, chars := cr.1, active := act }, cr.2)
  else ({ s with tick_counter := tc }, rng)

/-- The stream invariant of the spec. -/
def StreamInv (maxPos : Nat) (s : Stream) : Prop :=
  1 ≤ s.speed ∧ s.speed ≤ 4 ∧ 4 ≤ s.trail_len ∧ s.trail_len ≤ max 6 (maxPos - 2) ∧
  s.chars.length = s.trail_len

/-- States reachable from a stream by repeated `tick` with a fixed travel
bound. -/
inductive TickReach (maxPos : Nat) (rs : RuneSet) : Stream → Stream → Prop where
  | refl (s : Stream) : TickReach maxPos rs s s
  | step (s t : Stream) (rng : Rng) : TickReach maxPos rs s t →
      TickReach maxPos rs s ((t.tick maxPos rng rs).1)

/-- Model of `Vec::swap_remove`: replace index i with the last element and
pop; none when the index is out of bounds (the source never hits that). -/
def swapRemove {α : Type _} (xs : List α) (i : Nat) : Option (α × List α) :=
  match xs[i]? with
  | none => none
  | some a => some (a, (xs.set i (xs.getLast?.getD a)).dropLast)

structure Renderer where
  cols : Nat
  rows : Nat
  direction : Direction
  streams : List Stream
  palette : Palette
  rune_set : RuneSet
  density : ℚ
  global_tick : Nat
  show_status : Bool
  status_timer : Nat
  status_clear_needed : Bool
  fps : Nat

/-- The lane-sampling loop of `Renderer::resize`: n iterations, each
removing one uniformly chosen lane from the available pool (with the
source's early break on an empty pool). -/
def resizeLoop (maxPos : Nat) (rs : RuneSet) :
    Nat → List Nat → Rng → List Stream × List Nat × Rng
  | 0, avail, rng => ([], avail, rng)
  | n + 1, avail, rng =>
    if avail.isEmpty then ([], avail, rng)
    else
      let g := genRange rng 0 avail.length
      match swapRemove avail g.1 with
      | some p =>
        let s := Stream.new p.1 maxPos g.2 rs
        let r2 := resizeLoop maxPos rs n p.2 s.2
        (s.1 :: r2.1, r2.2)
      | none => ([], avail, rng)

/-- Model of `Renderer::resize`: store the new grid size and rebuild the
stream pool by sampling `min (target) (max_lanes)` lanes without
replacement, where target is `max 1 ((max_lanes as f32 * density) as usize)`
(the f32 product modelled as an exact rational, the usize cast as a
saturating floor). -/
def Renderer.resize (r : Renderer) (new_cols new_rows : Nat) (rng : Rng) :
    Renderer × Rng :=
  let r1 := { r with cols := new_cols, rows := new_rows }
  let mL : Nat := r1.direction.max_lanes r1.cols r1.rows
  let mP : Nat := r1.direction.max_pos r1.cols r1.rows
  let target := (Int.toNat ⌊(mL : ℚ) * r1.density⌋).max 1
  let lp := resizeLoop mP r1.rune_set (min target mL) (List.range mL) rng
  ({ r1 with streams := lp.1 }, lp.2.2)

/-- Model of `Renderer::change_density`: clamp into [0.05, 1], then a full
resize at the current grid size. -/
def Renderer.change_density (r : Renderer) (delta : ℚ) (rng : Rng) : Renderer × Rng :=
  Renderer.resize { r with density := min 1 (max (1 / 20) (r.density + delta)) }
    r.cols r.rows rng

/-- The first loop of `Renderer::tick`: advance every stream and mark the
lanes of streams still active afterwards as occupied. -/
def tickStreams (maxPos : Nat) (rs : RuneSet) :
    List Stream → List Bool → Rng → List Stream × List Bool × Rng
  | [], occ, rng => ([], occ, rng)
  | s :: rest, occ, rng =>
    let t := s.tick maxPos rng rs
    let occ1 := if t.1.active ∧ t.1.lane < occ.length then occ.set t.1.lane true else occ
    let r2 := tickStreams maxPos rs rest occ1 t.2
    (t.1 :: r2.1, r2.2)

/-- The free-lane computation of `Renderer::tick`. -/
def freeLanesOf (maxLanes : Nat) (occ : List Bool) : List Nat :=
  (List.range maxLanes).filter fun l => !(occ.getD l false)

/-- The second loop of `Renderer::tick`: every inactive stream is reset on
a lane drawn without replacement from the free list (uniform over all
lanes as a fallback when none are free); the occupied vector is also
updated, as in the source. -/
def reassignLoop (maxPos maxLanes : Nat) (rs : RuneSet) :
    List Stream → List Nat → List Bool → Rng → List Stream × List Nat × List Bool × Rng
  | [], free, occ, rng => ([], free, occ, rng)
  | s :: rest, free, occ, rng =>
    if s.active then
      let r2 := reassignLoop maxPos maxLanes rs rest free occ rng
      (s :: r2.1, r2.2)
    else
      let pick : Nat × List Nat × Rng :=
        if free.isEmpty then
          let g := genRange rng 0 (max maxLanes 1)
          (g.1, free, g.2)
        else
          let g := genRange rng 0 free.length
          match swapRemove free g.1 with
          | some p => (p.1, p.2, g.2)
          | none => (0, free, g.2)
      let s2 := Stream.reset s pick.1 maxPos pick.2.2 rs
      let occ2 := if pick.1 < occ.length then occ.set pick.1 true else occ
      let r2 := reassignLoop maxPos maxLanes rs rest pick.2.1 occ2 s2.2
      (s2.1 :: r2.1, r2.2)

/-- Model of `Renderer::tick`: bump the wrapping global tick, run the
status-overlay countdown, advance all streams, compute occupied and free
lanes, and reassign every inactive stream. -/
def Renderer.tick (r : Renderer) (rng : Rng) : Renderer × Rng :=
  let gt := (r.global_tick + 1) % 2 ^ 64
  let st := if 0 < r.status_timer then r.status_timer - 1 else r.status_timer
  let scn := if 0 < r.status_timer ∧ r.status_timer - 1 = 0 then true
             else r.status_clear_needed
  let mL := r.direction.max_lanes r.cols r.rows
  let mP := r.direction.max_pos r.cols r.rows
  let adv := tickStreams mP r.rune_set r.streams (List.replicate mL false) rng
  let free := freeLanesOf mL adv.2.1
  let ra := reassignLoop mP mL r.rune_set adv.1 free adv.2.1 adv.2.2
  ({ r with global_tick := gt, status_timer := st, status_clear_needed := scn,
            streams := ra.1 }, ra.2.2.2)

structure Config where
  palette : Palette
  fps : Nat
  density : ℚ

/-- The argument loop of `parse_args`.  The std string-to-number parsers
are external collaborators and are passed in abstractly (pu for the u64
one, pf for the f32 one); `--help` exits the process, modelled as none. -/
def parseArgsGo (pu : String → Option Nat) (pf : String → Option ℚ) :
    List String → Palette → Nat → ℚ → Option Config
  | [], p, f, d => some { palette := p, fps := f, density := d }
  | a :: rest, p, f, d =>
    if a = "--palette" ∨ a = "-p" then
      match rest with
      | v :: rest2 => parseArgsGo pu pf rest2 (Palette.from_str v) f d
      | [] => some { palette := p, fps := f, density := d }
    else if a = "--fps" ∨ a = "-f" then
      match rest with
      | v :: rest2 => parseArgsGo pu pf rest2 p (min 60 (max 5 ((pu v).getD 20))) d
      | [] => some { palette := p, fps := f, density := d }
    else if a = "--density" ∨ a = "-d" then
      match rest with
      | v :: rest2 =>
        parseArgsGo pu pf rest2 p f (min 1 (max (1 / 10) ((pf v).getD (2 / 5))))
      | [] => some { palette := p, fps := f, density := d }
    else if a = "--help" ∨ a = "-h" then none
    else parseArgsGo pu pf rest p f d

/-- Model of `parse_args` on the arguments after the program name, with
the source's defaults: Arcane, 20 fps, density 0.4. -/
def parse_args (pu : String → Option Nat) (pf : String → Option ℚ)
    (args : List String) : Option Config :=
  parseArgsGo pu pf args .Arcane 20 (2 / 5)

/-- Modelled from the spec (§4.3): the screen coordinate the spec says
`to_screen` produces when the travel coordinate is in range, to be
compared with the source's definition. -/
def screenSpecMap (d : Direction) (lane : Nat) (pos : Int) (cols rows : Nat) :
    Nat × Nat :=
  match d with
  | .Down => (lane, pos.toNat)
  | .Up => (lane, rows - 1 - pos.toNat)
  | .Right => (pos.toNat, lane)
  | .Left => (cols - 1 - pos.toNat, lane)

/-- The lanes of a stream list, in order. -/
def laneList (ss : List Stream) : List Nat := ss.map fun s => s.lane

/-- How many streams of the list are inactive. -/
def countInactive (ss : List Stream) : Nat := (ss.filter fun s => !s.active).length

/-- Given the stream list before and after the reassignment loop, the new
lanes of exactly the streams that were inactive before it. -/
def inactiveNewLanes : List Stream → List Stream → List Nat
  | [], _ => []
  | _ :: _, [] => []
  | s :: pre, t :: post =>
    if s.active then inactiveNewLanes pre post else t.lane :: inactiveNewLanes pre post

/-- An all-zero random stream, used for concrete evaluations. -/
def rngZero : Rng := fun _ => 0

/-- A concrete stream whose tail is about to scroll past a travel bound
of 3. -/
def sDying : Stream :=
  { lane := 0, pos := 10, speed := 1, tick_counter := 0, trail_len := 4,
    color_seed := 0, active := true, chars := ['a', 'b', 'c', 'd'] }

/-- A concrete renderer on a 3 by 3 grid holding `sDying`. -/
def rDemo : Renderer :=
  { cols := 3, rows := 3, direction := .Down, streams := [sDying],
    palette := .Arcane, rune_set := .Elder, density := mkRat 2 5, global_tick := 0,
    show_status := true, status_timer := 0, status_clear_needed := false, fps := 20 }

/- ── Helper lemmas ──────────────────────────────────────────────────── -/

theorem perm_take_out {α : Type _} (P D : List α) (a z : α) :
    (P ++ a :: (D ++ [z])).Perm (a :: (P ++ z :: D)) := by
  have h1 : (P ++ a :: (D ++ [z])).Perm (a :: (P ++ (D ++ [z]))) := List.perm_middle
  have h2 : (a :: (P ++ (D ++ [z]))).Perm (a :: (P ++ z :: D)) :=
    List.Perm.cons a (List.Perm.append_left P (List.perm_append_singleton z D))
  exact h1.trans h2

theorem swapRemove_eq {α : Type _} {xs : List α} {i : Nat} {a : α} {rest : List α}
    (h : swapRemove xs i = some (a, rest)) :
    xs[i]? = some a ∧ rest = (xs.set i (xs.getLast?.getD a)).dropLast := by
  unfold swapRemove at h
  cases hg : xs[i]? with
  | none => rw [hg] at h; cases h
  | some b =>
    rw [hg] at h
    simp only [Option.some.injEq, Prod.mk.injEq] at h
    obtain ⟨rfl, hr⟩ := h
    exact ⟨rfl, hr.symm⟩

theorem swapRemove_perm {α : Type _} {xs : List α} {i : Nat} {a : α} {rest : List α}
    (h : swapRemove xs i = some (a, rest)) : xs.Perm (a :: rest) := by
  obtain ⟨hg, hrest⟩ := swapRemove_eq h
  obtain ⟨hi, hval⟩ := List.getElem?_eq_some.mp hg
  have hset : ∀ b : α, xs.set i b = xs.take i ++ b :: xs.drop (i + 1) := by
    intro b; rw [List.set_eq_take_append_cons_drop, if_pos hi]
  have hx1 : xs = xs.take i ++ a :: xs.drop (i + 1) := by
    conv_lhs => rw [← List.take_append_drop i xs]
    rw [List.drop_eq_getElem_cons hi, hval]
  rcases List.eq_nil_or_concat (xs.drop (i + 1)) with hD | ⟨D, z, hD⟩
  · set P := xs.take i with hP
    have hxs : xs = P ++ [a] := by rw [hx1, hD]
    have hlast : xs.getLast? = some a := by rw [hxs]; exact List.getLast?_concat _
    have hrest2 : rest = P := by
      rw [hrest, hlast, Option.getD_some, hset a, hD, List.dropLast_concat]
    rw [hxs, hrest2]
    exact List.perm_append_singleton a P
  · rw [List.concat_eq_append] at hD
    set P := xs.take i with hP
    have hxs : xs = P ++ a :: (D ++ [z]) := by rw [hx1, hD]
    have hlast : xs.getLast? = some z := by
      have : xs = (P ++ a :: D) ++ [z] := by rw [hxs]; simp
      rw [this]; exact List.getLast?_concat _
    have hrest2 : rest = P ++ z :: D := by
      rw [hrest, hlast, Option.getD_some, hset z, hD]
      have : P ++ z :: (D ++ [z]) = (P ++ z :: D) ++ [z] := by simp
      rw [this, List.dropLast_concat]
    rw [hxs, hrest2]
    exact perm_take_out P D a z

theorem swapRemove_isSome {α : Type _} {xs : List α} {i : Nat} (h : i < xs.length) :
    ∃ a rest, swapRemove xs i = some (a, rest) := by
  refine ⟨xs[i], (xs.set i (xs.getLast?.getD xs[i])).dropLast, ?_⟩
  unfold swapRemove
  rw [List.getElem?_eq_getElem h]

theorem swapRemove_length {α : Type _} {xs : List α} {i : Nat} {a : α} {rest : List α}
    (h : swapRemove xs i = some (a, rest)) : rest.length + 1 = xs.length := by
  have := (swapRemove_perm h).length_eq
  simpa [Nat.add_comm] using this.symm

theorem swapRemove_mem {α : Type _} {xs : List α} {i : Nat} {a : α} {rest : List α}
    (h : swapRemove xs i = some (a, rest)) : a ∈ xs :=
  (swapRemove_perm h).mem_iff.mpr (List.mem_cons_self a rest)

theorem swapRemove_subset {α : Type _} {xs : List α} {i : Nat} {a : α} {rest : List α}
    (h : swapRemove xs i = some (a, rest)) : ∀ b ∈ rest, b ∈ xs := by
  intro b hb
  exact (swapRemove_perm h).mem_iff.mpr (List.mem_cons_of_mem a hb)

theorem swapRemove_nodup {α : Type _} {xs : List α} {i : Nat} {a : α} {rest : List α}
    (h : swapRemove xs i = some (a, rest)) (hn : xs.Nodup) :
    a ∉ rest ∧ rest.Nodup :=
  List.nodup_cons.mp ((swapRemove_perm h).nodup_iff.mp hn)

theorem genRange_lt (rng : Rng) {hi : Nat} (h : 0 < hi) : (genRange rng 0 hi).1 < hi := by
  simp only [genRange, Nat.zero_add, Nat.sub_zero]
  exact Nat.mod_lt _ h

theorem genRangeIncl_bounds (rng : Rng) (lo hi : Nat) (h : lo ≤ hi) :
    lo ≤ (genRangeIncl rng lo hi).1 ∧ (genRangeIncl rng lo hi).1 ≤ hi := by
  simp only [genRangeIncl, genRange]
  have hm : rng 0 % (hi + 1 - lo) < hi + 1 - lo := Nat.mod_lt _ (by omega)
  omega

theorem pickRunes_length : ∀ (n : Nat) (rng : Rng) (rs : RuneSet),
    (pickRunes n rng rs).1.length = n := by
  intro n
  induction n with
  | zero => intro rng rs; rfl
  | succ n ih => intro rng rs; simp [pickRunes, ih]

theorem laneList_cons (s : Stream) (ss : List Stream) :
    laneList (s :: ss) = s.lane :: laneList ss := rfl

theorem countInactive_cons (s : Stream) (ss : List Stream) :
    countInactive (s :: ss) = (if s.active then 0 else 1) + countInactive ss := by
  cases hs : s.active
  · simp [countInactive, List.filter_cons, hs]
    omega
  · simp [countInactive, List.filter_cons, hs]

theorem resizeLoop_length (maxPos : Nat) (rs : RuneSet) :
    ∀ (n : Nat) (avail : List Nat) (rng : Rng),
      (resizeLoop maxPos rs n avail rng).1.length = min n avail.length := by
  intro n
  induction n with
  | zero => intro avail rng; simp [resizeLoop]
  | succ n ih =>
    intro avail rng
    by_cases he : avail.isEmpty = true
    · have : avail = [] := List.isEmpty_iff.mp he
      subst this; simp [resizeLoop]
    · have hpos : 0 < avail.length := by
        cases avail with
        | nil => simp at he
        | cons a l => simp
      obtain ⟨a, rest, hsw⟩ := swapRemove_isSome (genRange_lt rng hpos)
      have hlen := swapRemove_length hsw
      simp only [resizeLoop, he, if_false, Bool.false_eq_true, hsw, List.length_cons, ih]
      omega

theorem resizeLoop_lanes (maxPos : Nat) (rs : RuneSet) :
    ∀ (n : Nat) (avail : List Nat) (rng : Rng), avail.Nodup →
      (laneList (resizeLoop maxPos rs n avail rng).1).Nodup ∧
      ∀ l ∈ laneList (resizeLoop maxPos rs n avail rng).1, l ∈ avail := by
  intro n
  induction n with
  | zero => intro avail rng _; simp [resizeLoop, laneList]
  | succ n ih =>
    intro avail rng hnd
    by_cases he : avail.isEmpty = true
    · simp [resizeLoop, he, laneList]
    · have hpos : 0 < avail.length := by
        cases avail with
        | nil => simp at he
        | cons a l => simp
      obtain ⟨a, rest, hsw⟩ := swapRemove_isSome (genRange_lt rng hpos)
      obtain ⟨hnotmem, hndrest⟩ := swapRemove_nodup hsw hnd
      obtain ⟨ih1, ih2⟩ :=
        ih rest (Stream.new a maxPos (genRange rng 0 avail.length).2 rs).2 hndrest
      simp only [resizeLoop, he, if_false, Bool.false_eq_true, hsw, laneList_cons]
      constructor
      · rw [List.nodup_cons]
        have hlane : (Stream.new a maxPos (genRange rng 0 avail.length).2 rs).1.lane = a :=
          rfl
        rw [hlane]
        exact ⟨fun hmem => hnotmem (ih2 _ hmem), ih1⟩
      · intro l hl
        rcases List.mem_cons.mp hl with hl | hl
        · have hlane : (Stream.new a maxPos (genRange rng 0 avail.length).2 rs).1.lane = a :=
            rfl
          rw [hlane] at hl
          exact hl ▸ swapRemove_mem hsw
        · exact swapRemove_subset hsw _ (ih2 _ hl)

theorem Stream.reset_lane (s : Stream) (lane maxPos : Nat) (rng : Rng) (rs : RuneSet) :
    (Stream.reset s lane maxPos rng rs).1.lane = lane := rfl

theorem reassignLoop_spec (maxPos maxLanes : Nat) (rs : RuneSet) :
    ∀ (ss : List Stream) (free : List Nat) (occ : List Bool) (rng : Rng),
      free.Nodup → countInactive ss ≤ free.length →
      (inactiveNewLanes ss (reassignLoop maxPos maxLanes rs ss free occ rng).1).Nodup ∧
      ∀ l ∈ inactiveNewLanes ss (reassignLoop maxPos maxLanes rs ss free occ rng).1,
        l ∈ free := by
  intro ss
  induction ss with
  | nil => intro free occ rng _ _; simp [reassignLoop, inactiveNewLanes]
  | cons s rest ih =>
    intro free occ rng hnd hle
    rw [countInactive_cons] at hle
    cases hs : s.active with
    | true =>
      rw [hs] at hle; simp only [if_true] at hle
      obtain ⟨ih1, ih2⟩ := ih free occ rng hnd (by omega)
      simp only [reassignLoop, hs, if_true, inactiveNewLanes]
      exact ⟨ih1, ih2⟩
    | false =>
      rw [hs] at hle
      simp only [Bool.false_eq_true, if_false] at hle
      have hfpos : 0 < free.length := by omega
      have hne : free.isEmpty = false := by
        cases free with
        | nil => simp at hfpos
        | cons a l => rfl
      obtain ⟨a, f2, hsw⟩ := swapRemove_isSome (genRange_lt rng hfpos)
      obtain ⟨hnotmem, hnd2⟩ := swapRemove_nodup hsw hnd
      have hlen2 := swapRemove_length hsw
      have key := ih f2 (if a < occ.length then occ.set a true else occ)
        ((Stream.reset s a maxPos (genRange rng 0 free.length).2 rs).2) hnd2 (by omega)
      simp only [reassignLoop, hs, Bool.false_eq_true, if_false, hne, hsw,
        inactiveNewLanes, Stream.reset_lane]
      refine ⟨List.nodup_cons.mpr ⟨?_, key.1⟩, ?_⟩
      · intro hmem
        exact hnotmem (key.2 _ hmem)
      · intro l hl
        rcases List.mem_cons.mp hl with rfl | hl
        · exact swapRemove_mem hsw
        · exact swapRemove_subset hsw _ (key.2 _ hl)

theorem Stream.new_inv (lane maxPos : Nat) (rng : Rng) (rs : RuneSet) :
    StreamInv maxPos (Stream.new lane maxPos rng rs).1 := by
  have h1 := genRangeIncl_bounds rng 4 (max (maxPos - 2) 6) (by omega)
  have h2 := genRangeIncl_bounds (genRangeIncl rng 4 (max (maxPos - 2) 6)).2 1 4
    (by omega)
  refine ⟨h2.1, h2.2, h1.1, ?_, pickRunes_length _ _ _⟩
  have := h1.2
  simp only [Stream.new]
  omega

theorem Stream.reset_inv (s : Stream) (lane maxPos : Nat) (rng : Rng) (rs : RuneSet) :
    StreamInv maxPos (Stream.reset s lane maxPos rng rs).1 := by
  have h2 := genRangeIncl_bounds (genRange rng 0 (max maxPos 1)).2 1 4 (by omega)
  have h1 := genRangeIncl_bounds
    (genRangeIncl (genRange rng 0 (max maxPos 1)).2 1 4).2
    4 (max (maxPos - 2) 6) (by omega)
  refine ⟨h2.1, h2.2, h1.1, ?_, pickRunes_length _ _ _⟩
  have := h1.2
  simp only [Stream.reset]
  omega

theorem Stream.tick_inv {maxPos : Nat} {s : Stream} (h : StreamInv maxPos s)
    (rng : Rng) (rs : RuneSet) : StreamInv maxPos ((s.tick maxPos rng rs).1) := by
  obtain ⟨h1, h2, h3, h4, h5⟩ := h
  unfold Stream.tick
  by_cases hc : s.speed ≤ s.tick_counter + 1
  · simp only [hc, if_true]
    by_cases he : s.chars.isEmpty = true
    · simp [StreamInv, he, h1, h2, h3, h4, h5]
    · by_cases hb : (genOneIn rng 5).1 = true
      · simp [StreamInv, he, hb, List.length_set, h1, h2, h3, h4, h5]
      · simp [StreamInv, he, hb, h1, h2, h3, h4, h5]
  · simp [StreamInv, hc, h1, h2, h3, h4, h5]

theorem tickReach_inv {maxPos : Nat} {rs : RuneSet} {s0 s : Stream}
    (h : TickReach maxPos rs s0 s) (h0 : StreamInv maxPos s0) : StreamInv maxPos s := by
  induction h with
  | refl => exact h0
  | step t rng hr ih => exact Stream.tick_inv ih rng rs

theorem ite_some_none_eq_none {α : Type _} {P : Prop} [Decidable P] {x : α} :
    ((if P then some x else none) = none) ↔ ¬ P := by
  split_ifs with h <;> simp [h]

theorem hueSegment_zero (n : Nat) : hueSegment n 0 0 = (0, 0, 0) := by
  match n with
  | 0 | 1 | 2 | 3 | 4 => rfl
  | m + 5 => rfl

theorem density_clamp_bounds (x : ℚ) :
    (1 / 10 : ℚ) ≤ min 1 (max (1 / 10) x) ∧ min 1 (max (1 / 10) x) ≤ 1 :=
  ⟨le_min (by norm_num) (le_max_left _ _), min_le_left _ _⟩

theorem parseArgsGo_range (pu : String → Option Nat) (pf : String → Option ℚ) :
    ∀ (n : Nat) (args : List String), args.length ≤ n →
      ∀ (p : Palette) (f : Nat) (d : ℚ) (c : Config),
        5 ≤ f → f ≤ 60 → (1 / 10 : ℚ) ≤ d → d ≤ 1 →
        parseArgsGo pu pf args p f d = some c →
        5 ≤ c.fps ∧ c.fps ≤ 60 ∧ (1 / 10 : ℚ) ≤ c.density ∧ c.density ≤ 1 := by
  intro n
  induction n with
  | zero =>
    intro args hlen p f d c h5 h60 hd1 hd2 hp
    have hargs : args = [] := List.eq_nil_of_length_eq_zero (by omega)
    subst hargs
    simp only [parseArgsGo, Option.some.injEq] at hp
    subst hp
    exact ⟨h5, h60, hd1, hd2⟩
  | succ n ih =>
    intro args hlen p f d c h5 h60 hd1 hd2 hp
    cases args with
    | nil =>
      simp only [parseArgsGo, Option.some.injEq] at hp
      subst hp
      exact ⟨h5, h60, hd1, hd2⟩
    | cons a rest =>
      rw [parseArgsGo.eq_def] at hp
      simp only [] at hp
      have hlen2 : rest.length ≤ n := by simp at hlen; omega
      by_cases c1 : a = "--palette" ∨ a = "-p"
      · rw [if_pos c1] at hp
        cases rest with
        | nil =>
          simp only [Option.some.injEq] at hp
          subst hp
          exact ⟨h5, h60, hd1, hd2⟩
        | cons v rest2 =>
          exact ih rest2 (by simp at hlen2; omega) _ _ _ _ h5 h60 hd1 hd2 hp
      · rw [if_neg c1] at hp
        by_cases c2 : a = "--fps" ∨ a = "-f"
        · rw [if_pos c2] at hp
          cases rest with
          | nil =>
            simp only [Option.some.injEq] at hp
            subst hp
            exact ⟨h5, h60, hd1, hd2⟩
          | cons v rest2 =>
            refine ih rest2 (by simp at hlen2; omega) _ _ _ _ ?_ ?_ hd1 hd2 hp
            · omega
            · omega
        · rw [if_neg c2] at hp
          by_cases c3 : a = "--density" ∨ a = "-d"
          · rw [if_pos c3] at hp
            cases rest with
            | nil =>
              simp only [Option.some.injEq] at hp
              subst hp
              exact ⟨h5, h60, hd1, hd2⟩
            | cons v rest2 =>
              refine ih rest2 (by simp at hlen2; omega) _ _ _ _ h5 h60 ?_ ?_ hp
              · exact (density_clamp_bounds _).1
              · exact (density_clamp_bounds _).2
          · rw [if_neg c3] at hp
            by_cases c4 : a = "--help" ∨ a = "-h"
            · rw [if_pos c4] at hp
              cases hp
            · rw [if_neg c4] at hp
              exact ih rest hlen2 _ _ _ _ h5 h60 hd1 hd2 hp

theorem from_str_fallback {s : String} (h : s.toLower ∉ recognizedPalettes) :
    Palette.from_str s = Palette.Arcane := by
  simp only [recognizedPalettes, List.mem_cons, List.mem_singleton, not_or] at h
  obtain ⟨h1, h2, h3, h4, h5, h6, h7, h8, h9, h10, h11, h12, h13⟩ := h
  simp [Palette.from_str, h1, h2, h3, h4, h5, h6, h7, h8, h9, h10, h11, h12, h13]

theorem resize_spec (r : Renderer) (new_cols new_rows : Nat) (rng : Rng)
    (hL : 1 ≤ r.direction.max_lanes new_cols new_rows)
    (_hd0 : 0 ≤ r.density) (hd1 : r.density ≤ 1) :
    ((r.resize new_cols new_rows rng).1).streams.length
        = (Int.toNat ⌊((r.direction.max_lanes new_cols new_rows : Nat) : ℚ)
            * r.density⌋).max 1 ∧
    (laneList ((r.resize new_cols new_rows rng).1).streams).Nodup ∧
    ∀ s ∈ ((r.resize new_cols new_rows rng).1).streams,
      s.lane < r.direction.max_lanes new_cols new_rows := by
  have hstreams : ((r.resize new_cols new_rows rng).1).streams =
      (resizeLoop (r.direction.max_pos new_cols new_rows) r.rune_set
        (min ((Int.toNat ⌊((r.direction.max_lanes new_cols new_rows : Nat) : ℚ)
            * r.density⌋).max 1)
          (r.direction.max_lanes new_cols new_rows))
        (List.range (r.direction.max_lanes new_cols new_rows)) rng).1 := rfl
  have hfloor : Int.toNat ⌊((r.direction.max_lanes new_cols new_rows : Nat) : ℚ)
      * r.density⌋ ≤ r.direction.max_lanes new_cols new_rows := by
    have h1 : ((r.direction.max_lanes new_cols new_rows : Nat) : ℚ) * r.density
        ≤ ((r.direction.max_lanes new_cols new_rows : Nat) : ℚ) :=
      mul_le_of_le_one_right (by positivity) hd1
    have h2 := Int.floor_le_floor h1
    rw [Int.floor_natCast] at h2
    omega
  have hlanes := resizeLoop_lanes (r.direction.max_pos new_cols new_rows) r.rune_set
    (min ((Int.toNat ⌊((r.direction.max_lanes new_cols new_rows : Nat) : ℚ)
        * r.density⌋).max 1)
      (r.direction.max_lanes new_cols new_rows))
    (List.range (r.direction.max_lanes new_cols new_rows)) rng
    (List.nodup_range _)
  refine ⟨?_, ?_, ?_⟩
  · rw [hstreams, resizeLoop_length, List.length_range]
    have htL : (Int.toNat ⌊((r.direction.max_lanes new_cols new_rows : Nat) : ℚ)
        * r.density⌋).max 1 ≤ r.direction.max_lanes new_cols new_rows :=
      Nat.max_le.mpr ⟨hfloor, hL⟩
    rw [min_assoc, min_self, min_eq_left htL]
  · rw [hstreams]
    exact hlanes.1
  · intro s hs
    rw [hstreams] at hs
    have hm : s.lane ∈ laneList (resizeLoop (r.direction.max_pos new_cols new_rows)
        r.rune_set
        (min ((Int.toNat ⌊((r.direction.max_lanes new_cols new_rows : Nat) : ℚ)
            * r.density⌋).max 1)
          (r.direction.max_lanes new_cols new_rows))
        (List.range (r.direction.max_lanes new_cols new_rows)) rng).1 :=
      List.mem_map_of_mem _ hs
    exact List.mem_range.mp (hlanes.2 _ hm)

/- ── Claim theorems ─────────────────────────────────────────────────── -/

/-- C1 (amended): provided the grid has at least one lane and the density
lies in [0, 1] (which the program maintains), one `resize` leaves exactly
max 1 (floor (maxLanes × density)) streams on pairwise distinct lanes
inside [0, maxLanes); a density change does the same with the clamped new
density.  On a zero-lane grid the pool is empty instead, see the
counterexample. -/
theorem resize_pool_size_distinct (r : Renderer) (new_cols new_rows : Nat)
    (delta : ℚ) (rng : Rng)
    (hL : 1 ≤ r.direction.max_lanes new_cols new_rows)
    (hd0 : 0 ≤ r.density) (hd1 : r.density ≤ 1)
    (hL2 : 1 ≤ r.direction.max_lanes r.cols r.rows) :
    (((r.resize new_cols new_rows rng).1).streams.length
        = (Int.toNat ⌊((r.direction.max_lanes new_cols new_rows : Nat) : ℚ)
            * r.density⌋).max 1 ∧
      (laneList ((r.resize new_cols new_rows rng).1).streams).Nodup ∧
      ∀ s ∈ ((r.resize new_cols new_rows rng).1).streams,
        s.lane < r.direction.max_lanes new_cols new_rows) ∧
    (((r.change_density delta rng).1).streams.length
        = (Int.toNat ⌊((r.direction.max_lanes r.cols r.rows : Nat) : ℚ)
            * min 1 (max (1 / 20) (r.density + delta))⌋).max 1 ∧
      (laneList ((r.change_density delta rng).1).streams).Nodup) := by
  refine ⟨resize_spec r new_cols new_rows rng hL hd0 hd1, ?_⟩
  have hd0' : (0 : ℚ) ≤ min 1 (max (1 / 20) (r.density + delta)) :=
    le_min (by norm_num) (le_trans (by norm_num) (le_max_left _ _))
  have hd1' : min 1 (max (1 / 20) (r.density + delta)) ≤ 1 := min_le_left _ _
  have h := resize_spec { r with density := min 1 (max (1 / 20) (r.density + delta)) }
    r.cols r.rows rng hL2 hd0' hd1'
  exact ⟨h.1, h.2.1⟩

/-- Witness for C1 on an 80 by 24 grid, direction Down, density 0.4:
the pool has max 1 (floor (80 × 0.4)) = 32 streams on distinct columns
below 80, and a density change to 0.45 behaves alike. -/
theorem resize_pool_size_distinct_inst :
    (((rDemo.resize 80 24 rngZero).1).streams.length
        = (Int.toNat ⌊((rDemo.direction.max_lanes 80 24 : Nat) : ℚ)
            * rDemo.density⌋).max 1 ∧
      (laneList ((rDemo.resize 80 24 rngZero).1).streams).Nodup ∧
      ∀ s ∈ ((rDemo.resize 80 24 rngZero).1).streams,
        s.lane < rDemo.direction.max_lanes 80 24) ∧
    (((rDemo.change_density (1 / 20) rngZero).1).streams.length
        = (Int.toNat ⌊((rDemo.direction.max_lanes rDemo.cols rDemo.rows : Nat) : ℚ)
            * min 1 (max (1 / 20) (rDemo.density + 1 / 20))⌋).max 1 ∧
      (laneList ((rDemo.change_density (1 / 20) rngZero).1).streams).Nodup) :=
  resize_pool_size_distinct rDemo 80 24 (1 / 20) rngZero (by decide) (by decide)
    (by decide) (by decide)

/-- C1 counterexample: a zero-width grid with direction Down has zero
lanes; a resize there leaves an empty pool, while the count the claim
asks for, max 1 (floor (0 × 0.4)), is 1. -/
theorem resize_pool_zero_lanes_cex :
    ((rDemo.resize 0 24 rngZero).1).streams.length = 0 ∧
    (Int.toNat ⌊((rDemo.direction.max_lanes 0 24 : Nat) : ℚ) * rDemo.density⌋).max 1
      = 1 ∧
    ((rDemo.resize 0 24 rngZero).1).streams.length
      ≠ (Int.toNat ⌊((rDemo.direction.max_lanes 0 24 : Nat) : ℚ) * rDemo.density⌋).max 1
    := by
  have h1 : ((rDemo.resize 0 24 rngZero).1).streams.length = 0 := by
    have hstreams : ((rDemo.resize 0 24 rngZero).1).streams =
        (resizeLoop (rDemo.direction.max_pos 0 24) rDemo.rune_set
          (min ((Int.toNat ⌊((rDemo.direction.max_lanes 0 24 : Nat) : ℚ)
              * rDemo.density⌋).max 1)
            (rDemo.direction.max_lanes 0 24))
          (List.range (rDemo.direction.max_lanes 0 24)) rngZero).1 := rfl
    rw [hstreams, resizeLoop_length]
    simp [rDemo, Direction.max_lanes]
  have h2 : (Int.toNat ⌊((rDemo.direction.max_lanes 0 24 : Nat) : ℚ)
      * rDemo.density⌋).max 1 = 1 := by
    have hzero : ((rDemo.direction.max_lanes 0 24 : Nat) : ℚ) = 0 := by
      norm_num [rDemo, Direction.max_lanes]
    rw [hzero, zero_mul, Int.floor_zero]
    rfl
  refine ⟨h1, h2, ?_⟩
  rw [h1, h2]
  decide

/-- C10: `resize` is total on every grid and the pool size is exactly
min (max 1 (floor (maxLanes × density))) maxLanes — in particular 0, not
max 1 of the target, on a zero-lane grid. -/
theorem resize_pool_size_total (r : Renderer) (new_cols new_rows : Nat) (rng : Rng) :
    ((r.resize new_cols new_rows rng).1).streams.length
      = min ((Int.toNat ⌊((r.direction.max_lanes new_cols new_rows : Nat) : ℚ)
            * r.density⌋).max 1)
          (r.direction.max_lanes new_cols new_rows) := by
  have hstreams : ((r.resize new_cols new_rows rng).1).streams =
      (resizeLoop (r.direction.max_pos new_cols new_rows) r.rune_set
        (min ((Int.toNat ⌊((r.direction.max_lanes new_cols new_rows : Nat) : ℚ)
            * r.density⌋).max 1)
          (r.direction.max_lanes new_cols new_rows))
        (List.range (r.direction.max_lanes new_cols new_rows)) rng).1 := rfl
  rw [hstreams, resizeLoop_length, List.length_range]
  omega

/-- C3: within one `tick`, when at least as many lanes are free after the
advance phase as there are inactive streams, the lanes assigned to those
inactive streams are pairwise distinct. -/
theorem tick_reassign_distinct (r : Renderer) (rng : Rng)
    (h : countInactive (tickStreams (r.direction.max_pos r.cols r.rows) r.rune_set
            r.streams (List.replicate (r.direction.max_lanes r.cols r.rows) false)
            rng).1
          ≤ (freeLanesOf (r.direction.max_lanes r.cols r.rows)
              (tickStreams (r.direction.max_pos r.cols r.rows) r.rune_set r.streams
                (List.replicate (r.direction.max_lanes r.cols r.rows) false)
                rng).2.1).length) :
    (inactiveNewLanes
        (tickStreams (r.direction.max_pos r.cols r.rows) r.rune_set r.streams
          (List.replicate (r.direction.max_lanes r.cols r.rows) false) rng).1
        ((r.tick rng).1.streams)).Nodup := by
  have hnd : (freeLanesOf (r.direction.max_lanes r.cols r.rows)
      (tickStreams (r.direction.max_pos r.cols r.rows) r.rune_set r.streams
        (List.replicate (r.direction.max_lanes r.cols r.rows) false) rng).2.1).Nodup :=
    List.Nodup.filter _ (List.nodup_range _)
  exact (reassignLoop_spec _ _ _ _ _ _ _ hnd h).1

/-- Witness for C3: on the 3 by 3 demo grid the one stream dies on this
tick, one stream is inactive, three lanes are free, and the reassigned
lane list is duplicate-free. -/
theorem tick_reassign_distinct_inst :
    (inactiveNewLanes
        (tickStreams (rDemo.direction.max_pos rDemo.cols rDemo.rows) rDemo.rune_set
          rDemo.streams
          (List.replicate (rDemo.direction.max_lanes rDemo.cols rDemo.rows) false)
          rngZero).1
        ((rDemo.tick rngZero).1.streams)).Nodup :=
  tick_reassign_distinct rDemo rngZero (by decide)

/-- C9: argument handling is total and clamped: any accepted argument
list yields fps in [5, 60] and density in [0.1, 1]; a `--fps` value is
the parsed number clamped into [5, 60] with fallback 20 on parse failure,
`--density` likewise with fallback 0.4 and clamp [0.1, 1]; `--palette`
goes through `from_str`, where every unrecognized name falls back to
Arcane. -/
theorem parse_args_total_clamped (pu : String → Option Nat) (pf : String → Option ℚ) :
    (∀ (args : List String) (c : Config), parse_args pu pf args = some c →
        5 ≤ c.fps ∧ c.fps ≤ 60 ∧ (1 / 10 : ℚ) ≤ c.density ∧ c.density ≤ 1) ∧
    (∀ v, parse_args pu pf ["--fps", v]
        = some { palette := .Arcane, fps := min 60 (max 5 ((pu v).getD 20)),
                 density := 2 / 5 }) ∧
    (∀ v, parse_args pu pf ["--density", v]
        = some { palette := .Arcane, fps := 20,
                 density := min 1 (max (1 / 10) ((pf v).getD (2 / 5))) }) ∧
    (∀ v, parse_args pu pf ["--palette", v]
        = some { palette := Palette.from_str v, fps := 20, density := 2 / 5 }) ∧
    (∀ s, s.toLower ∈ recognizedPalettes ∨ Palette.from_str s = Palette.Arcane) := by
  refine ⟨?_, fun v => rfl, fun v => rfl, fun v => rfl, ?_⟩
  · intro args c h
    exact parseArgsGo_range pu pf args.length args le_rfl .Arcane 20 (2 / 5) c
      (by norm_num) (by norm_num) (by norm_num) (by norm_num) h
  · intro s
    by_cases hm : s.toLower ∈ recognizedPalettes
    · exact Or.inl hm
    · exact Or.inr (from_str_fallback hm)

/-- Witness for C9: the empty argument list yields the in-range default
fps 20 and density 0.4. -/
theorem parse_args_total_clamped_inst :
    5 ≤ (20 : Nat) ∧ (20 : Nat) ≤ 60 ∧ (1 / 10 : ℚ) ≤ 2 / 5 ∧ (2 / 5 : ℚ) ≤ 1 :=
  (parse_args_total_clamped (fun _ => none) (fun _ => none)).1 []
    { palette := .Arcane, fps := 20, density := 2 / 5 } rfl

/-- C2: `to_screen` returns none exactly when the travel position is
outside [0, bound) with bound = `max_pos` (rows for Down/Up, columns for
Left/Right); in range it returns (lane, pos) for Down, (lane, h-1-pos)
for Up, (pos, lane) for Right and (w-1-pos, lane) for Left, as collected
in `screenSpecMap`. -/
theorem to_screen_cases (d : Direction) (lane : Nat) (pos : Int) (cols rows : Nat) :
    (d.to_screen lane pos cols rows = none ↔
      pos < 0 ∨ (d.max_pos cols rows : Int) ≤ pos) ∧
    (0 ≤ pos → pos < (d.max_pos cols rows : Int) →
      d.to_screen lane pos cols rows = some (screenSpecMap d lane pos cols rows)) := by
  cases d <;> refine ⟨?_, fun h1 h2 => ?_⟩ <;>
    first
      | (simp only [Direction.to_screen, Direction.max_pos, ite_some_none_eq_none]
         omega)
      | (simp only [Direction.max_pos] at h2
         simp only [Direction.to_screen, screenSpecMap]
         rw [if_pos (And.intro h1 h2)])

/-- Witness for C2: direction Up on an 80 by 24 grid maps travel
position 5 on lane 2 to screen row 24 - 1 - 5 = 18. -/
theorem to_screen_cases_inst :
    Direction.to_screen .Up 2 5 80 24 = some (screenSpecMap .Up 2 5 80 24) :=
  (to_screen_cases .Up 2 5 80 24).2 (by decide) (by decide)

/-- C4: on a tick where the bumped counter reaches the speed, the head
advances by one and the counter resets, and an active stream goes
inactive exactly when the advanced head has scrolled the whole trail past
the travel bound; on all other ticks position, counter offset and active
flag evolve trivially. -/
theorem stream_tick_advance (s : Stream) (maxPos : Nat) (rng : Rng) (rs : RuneSet)
    (hact : s.active = true) :
    (s.speed ≤ s.tick_counter + 1 →
      ((s.tick maxPos rng rs).1.pos = s.pos + 1 ∧
       (s.tick maxPos rng rs).1.tick_counter = 0 ∧
       ((s.tick maxPos rng rs).1.active = false ↔
         (maxPos : Int) < s.pos + 1 - (s.trail_len : Int)))) ∧
    (s.tick_counter + 1 < s.speed →
      ((s.tick maxPos rng rs).1.pos = s.pos ∧
       (s.tick maxPos rng rs).1.tick_counter = s.tick_counter + 1 ∧
       (s.tick maxPos rng rs).1.active = s.active)) := by
  constructor
  · intro h
    by_cases hb : (maxPos : Int) < s.pos + 1 - (s.trail_len : Int)
    · simp [Stream.tick, h, hb]
    · simp [Stream.tick, h, hb, hact]
  · intro h
    have h2 : ¬ (s.speed ≤ s.tick_counter + 1) := by omega
    simp [Stream.tick, h2]

/-- Witness for C4 at a concrete active stream of speed 1 that dies on
this advance. -/
theorem stream_tick_advance_inst :
    (sDying.tick 3 rngZero .Elder).1.pos = sDying.pos + 1 ∧
    (sDying.tick 3 rngZero .Elder).1.tick_counter = 0 ∧
    ((sDying.tick 3 rngZero .Elder).1.active = false ↔
      (3 : Int) < sDying.pos + 1 - (sDying.trail_len : Int)) :=
  (stream_tick_advance sDying 3 rngZero .Elder rfl).1 (by decide)

/-- C5: any stream produced by `new` or `reset` with travel bound maxPos,
and any state reachable from it by `tick`, has speed in [1, 4], trail
length in [4, max 6 (maxPos - 2)], and exactly trail-length glyphs. -/
theorem stream_invariant_reachable (maxPos : Nat) (rs : RuneSet) (s0 s : Stream)
    (h0 : (∃ lane rng, s0 = (Stream.new lane maxPos rng rs).1) ∨
          (∃ t lane rng, s0 = (Stream.reset t lane maxPos rng rs).1))
    (hr : TickReach maxPos rs s0 s) :
    StreamInv maxPos s := by
  refine tickReach_inv hr ?_
  rcases h0 with ⟨lane, rng, rfl⟩ | ⟨t, lane, rng, rfl⟩
  · exact Stream.new_inv lane maxPos rng rs
  · exact Stream.reset_inv t lane maxPos rng rs

/-- Witness for C5 at a concrete newly created stream. -/
theorem stream_invariant_reachable_inst :
    StreamInv 24 (Stream.new 0 24 rngZero .Elder).1 :=
  stream_invariant_reachable 24 .Elder _ _ (Or.inl ⟨0, rngZero, rfl⟩)
    (TickReach.refl _)

/-- C6 counterexample: with a random stream that yields 0, `Stream::new`
puts the head at position 0, which is not negative, refuting the claim
that the initial head position is always strictly negative. -/
theorem stream_new_pos_zero_cex :
    ¬ ((Stream.new 0 24 rngZero .Elder).1.pos < 0) := by decide

/-- C6 (amended): the head position produced by `Stream::new` and
`Stream::reset` is a nonpositive offset (it can be 0, since the offset is
drawn from the half-open range starting at 0). -/
theorem stream_start_pos_nonpos :
    (∀ (lane maxPos : Nat) (rng : Rng) (rs : RuneSet),
      ((Stream.new lane maxPos rng rs).1).pos ≤ 0) ∧
    (∀ (s : Stream) (lane maxPos : Nat) (rng : Rng) (rs : RuneSet),
      ((Stream.reset s lane maxPos rng rs).1).pos ≤ 0) := by
  constructor
  · intro lane maxPos rng rs
    simp only [Stream.new]
    omega
  · intro s lane maxPos rng rs
    simp only [Stream.reset]
    omega

/-- C7: the blinking-rainbow trail color is the HSL conversion of the hue
obtained from the wrapping 64-bit sum of global tick, travel coordinate
(as u64) and column seed, multiplied wrapping by the odd constant
1103515245 and reduced mod 360; being a pure function of that triple and
the intensity, two evaluations on the same inputs give the same color. -/
theorem blinking_rainbow_hue_formula (intensity : ℚ) (seed t : Nat) (coord : Int) :
    Palette.color .BlinkingRainbow intensity seed t coord =
      hsl_to_rgb
        (((t + u64ofI32 coord + seed) % 2 ^ 64 * 1103515245 % 2 ^ 64 % 360 : Nat) : ℚ)
        1 (2 / 5 + 3 / 10 * min (max intensity 0) 1) := by
  simp only [Palette.color]
  rw [Nat.mod_add_mod]

/-- C8: the HSL to RGB conversion meets the standard test vectors, and a
zero-saturation input is achromatic for every hue and lightness. -/
theorem hsl_to_rgb_test_vectors :
    hsl_to_rgb 0 1 (1 / 2) = (255, 0, 0) ∧
    hsl_to_rgb 120 1 (1 / 2) = (0, 255, 0) ∧
    ∀ (h l : ℚ), (hsl_to_rgb h 0 l).1 = (hsl_to_rgb h 0 l).2.1 ∧
      (hsl_to_rgb h 0 l).2.1 = (hsl_to_rgb h 0 l).2.2 := by
  refine ⟨?_, ?_, ?_⟩
  · norm_num [hsl_to_rgb, rustRem, ratTrunc, u32sat, toU8, hueSegment,
      Int.toNat_zero, Int.toNat_one, Int.toNat_ofNat]
  · have h2 : Int.toNat 2 = 2 := rfl
    norm_num [hsl_to_rgb, rustRem, ratTrunc, u32sat, toU8, hueSegment, h2]
  · intro h l
    simp [hsl_to_rgb, mul_zero, zero_mul, hueSegment_zero]

end Runefall
